import Mathlib

/-!
Verification of the Trello shopping-list client (`src/app.js`).

A shallow embedding of the state-manipulating core of `app.js`
(`TrelloShoppingApp`): the recent-products log, accent-insensitive
search, the optimistic toggle operations, board bootstrap, import,
bulk delete, and the view-state transitions.  Remote identifiers are
modelled as natural numbers, names and colors as strings, and the
outcome of each remote call as an explicit boolean parameter.
-/

set_option maxRecDepth 4000
set_option linter.unnecessarySeqFocus false

namespace ShoppingApp

/-- A Trello card (product): `{id, name, idList, idLabels, desc}` as used
by `app.js`. -/
structure Card where
  id : Nat
  name : String
  idList : Nat
  idLabels : List Nat
  desc : String
deriving Repr, DecidableEq

/-- A Trello label: `{id, name, color}`. -/
structure TLabel where
  id : Nat
  name : String
  color : String
deriving Repr, DecidableEq

/-- A Trello list: `{id, name}`. -/
structure TList where
  id : Nat
  name : String
deriving Repr, DecidableEq

/-- An entry of the recent-products log: `{cardId, timestamp}`
(`addToRecentProducts`). -/
structure RecentEntry where
  cardId : Nat
  timestamp : Nat
deriving Repr, DecidableEq

/-- The method `addToRecentProducts(cardId)` from `app.js` lines 111-120: drop any
existing entry for the card, prepend a fresh entry (`unshift`), and keep
only the first 10 entries (`slice(0, 10)`).  The JS timestamp
`Date.now()` is passed in explicitly. -/
def addToRecentProducts (recentProducts : List RecentEntry)
    (cardId timestamp : Nat) : List RecentEntry :=
  let filtered := recentProducts.filter (fun item => item.cardId != cardId)
  (( { cardId := cardId, timestamp := timestamp } : RecentEntry) :: filtered).take 10

/-- A sequence of `addToRecentProducts` calls, oldest first; each element
is a `(cardId, timestamp)` pair. -/
def applyRecentOps (recentProducts : List RecentEntry)
    (ops : List (Nat × Nat)) : List RecentEntry :=
  ops.foldl (fun log op => addToRecentProducts log op.1 op.2) recentProducts

end ShoppingApp

namespace ShoppingApp

/-- The whitespace class of the JavaScript regexp `\s` / `String.trim`,
restricted to the characters the app can see (ASCII whitespace). -/
def isJsWhitespace (c : Char) : Bool :=
  c == ' ' || c == '\t' || c == '\n' || c == '\r' || c == '\x0b' || c == '\x0c'

/-- JavaScript `String.prototype.trim()` on a character list. -/
def jsTrim (s : List Char) : List Char :=
  ((s.dropWhile isJsWhitespace).reverse.dropWhile isJsWhitespace).reverse

/-- Modelled from `String.prototype.normalize('NFD')`: canonical
decomposition for the precomposed Latin characters the app's Spanish
product/store names use; every other character decomposes to itself.
`Char.ofNat 769` is U+0301 COMBINING ACUTE ACCENT, `Char.ofNat 768`
U+0300 COMBINING GRAVE, `Char.ofNat 771` U+0303 COMBINING TILDE,
`Char.ofNat 776` U+0308 COMBINING DIAERESIS. -/
def nfdChar (c : Char) : List Char :=
  if c == 'á' then ['a', Char.ofNat 769]
  else if c == 'é' then ['e', Char.ofNat 769]
  else if c == 'í' then ['i', Char.ofNat 769]
  else if c == 'ó' then ['o', Char.ofNat 769]
  else if c == 'ú' then ['u', Char.ofNat 769]
  else if c == 'Á' then ['A', Char.ofNat 769]
  else if c == 'É' then ['E', Char.ofNat 769]
  else if c == 'Í' then ['I', Char.ofNat 769]
  else if c == 'Ó' then ['O', Char.ofNat 769]
  else if c == 'Ú' then ['U', Char.ofNat 769]
  else if c == 'à' then ['a', Char.ofNat 768]
  else if c == 'è' then ['e', Char.ofNat 768]
  else if c == 'ì' then ['i', Char.ofNat 768]
  else if c == 'ò' then ['o', Char.ofNat 768]
  else if c == 'ù' then ['u', Char.ofNat 768]
  else if c == 'ñ' then ['n', Char.ofNat 771]
  else if c == 'Ñ' then ['N', Char.ofNat 771]
  else if c == 'ü' then ['u', Char.ofNat 776]
  else if c == 'Ü' then ['U', Char.ofNat 776]
  else [c]

/-- The combining-mark range `[̀-ͯ]` stripped by
`normalizeString`. -/
def isCombiningMark (c : Char) : Bool :=
  decide (0x300 ≤ c.toNat ∧ c.toNat ≤ 0x36f)

/-- The method `normalizeString` (`app.js` lines 160-162) on a character list:
NFD-decompose, strip combining marks, lowercase.  `Char.toLower`
matches `toLowerCase()` on the post-strip (ASCII) characters the app
handles. -/
def normalizeChars (s : List Char) : List Char :=
  ((s.flatMap nfdChar).filter (fun c => !isCombiningMark c)).map Char.toLower

/-- The method `normalizeString(str)`, which chains NFD normalization, a
combining-mark strip and lowercasing. -/
def normalizeString (s : String) : String :=
  String.mk (normalizeChars s.data)

/-- Worker for `splitWs`: `acc` is the current word read so far
(reversed); `inRun` records that the previous character was whitespace,
so further whitespace of the same run emits no extra word. -/
def splitWsAux (inRun : Bool) (acc : List Char) : List Char → List (List Char)
  | [] => [acc.reverse]
  | c :: cs =>
    if isJsWhitespace c then
      if inRun then splitWsAux true acc cs
      else acc.reverse :: splitWsAux true [] cs
    else splitWsAux false (c :: acc) cs

/-- JavaScript word splitting on whitespace runs (the regexp split the
code applies to the product name); a leading run
yields an empty first word and a trailing run an empty last word, as in
JavaScript. -/
def splitWs (s : List Char) : List (List Char) :=
  splitWsAux false [] s

/-- The search predicate of `renderStoreDetail` (`app.js` lines 791-798):
trim the raw query, normalize query and product name, split the name on
whitespace, and test whether any word starts with the query. -/
def productMatches (searchQuery name : String) : Bool :=
  let query := normalizeChars (jsTrim searchQuery.data)
  let words := splitWs (normalizeChars name.data)
  words.any (fun word => query.isPrefixOf word)

/-- The matching relation in the spec's words: the normalized query (no
trimming mentioned) is a prefix of some whitespace-delimited word of the
normalized product name. -/
def matchesSpec (searchQuery name : String) : Prop :=
  ∃ w ∈ splitWs (normalizeChars name.data),
    (normalizeChars searchQuery.data).isPrefixOf w = true

instance (q n : String) : Decidable (matchesSpec q n) := by
  unfold matchesSpec; infer_instance

end ShoppingApp

namespace ShoppingApp

/-- The slice of the app's mutable state touched by the toggle
operations: the card cache, the identifiers of the two distinguished
lists, and the recent-products log. -/
structure ToggleState where
  cards : List Card
  allProductsListId : Nat
  activeListId : Nat
  recentProducts : List RecentEntry
deriving Repr, DecidableEq

/-- Assignment of `listId` to the first card of the cache whose id
matches, mirroring the in-place mutation of the object returned by
`this.cards.find(...)`. -/
def setCardList (cards : List Card) (cardId listId : Nat) : List Card :=
  match cards with
  | [] => []
  | c :: cs =>
    if c.id == cardId then { c with idList := listId } :: cs
    else c :: setCardList cs cardId listId

/-- The method `toggleProduct(cardId)` (`app.js` lines 1435-1468): find the card
(silently return if absent), flip its list optimistically, push it onto
the recent-products log when it was active, then issue the remote move;
on failure restore the recorded previous list.  `moveSucceeds` is the
outcome of the remote `moveCard` call and `timestamp` the `Date.now()`
used by `addToRecentProducts`. -/
def toggleProduct (s : ToggleState) (cardId timestamp : Nat)
    (moveSucceeds : Bool) : ToggleState :=
  match s.cards.find? (fun c => c.id == cardId) with
  | none => s
  | some card =>
    let targetListId :=
      if card.idList == s.activeListId then s.allProductsListId
      else s.activeListId
    let previousListId := card.idList
    let wasActive := previousListId == s.activeListId
    let s1 := { s with cards := setCardList s.cards cardId targetListId }
    let s2 :=
      if wasActive then
        { s1 with recentProducts :=
            addToRecentProducts s1.recentProducts cardId timestamp }
      else s1
    if moveSucceeds then s2
    else { s2 with cards := setCardList s2.cards cardId previousListId }

/-- The method `toggleCardActive(cardId)` (`app.js` lines 1654-1702): same optimistic
move and rollback, but the recent-products push happens only after the
remote call succeeds (the failure branch returns early). -/
def toggleCardActive (s : ToggleState) (cardId timestamp : Nat)
    (moveSucceeds : Bool) : ToggleState :=
  match s.cards.find? (fun c => c.id == cardId) with
  | none => s
  | some card =>
    let isCurrentlyActive := card.idList == s.activeListId
    let targetListId :=
      if isCurrentlyActive then s.allProductsListId else s.activeListId
    let previousListId := card.idList
    let s1 := { s with cards := setCardList s.cards cardId targetListId }
    if moveSucceeds then
      if isCurrentlyActive then
        { s1 with recentProducts :=
            addToRecentProducts s1.recentProducts cardId timestamp }
      else s1
    else { s1 with cards := setCardList s1.cards cardId previousListId }

/-- The lookup `this.recentProducts.findIndex(item => item.cardId === card.id)`,
as an `Option` instead of the JS `-1` sentinel. -/
def recentIndex (recentProducts : List RecentEntry) (cardId : Nat) : Option Nat :=
  recentProducts.findIdx? (fun item => item.cardId == cardId)

/-- The comparator of the available-products sort (`app.js` lines
832-846) as the total preorder "sorts before or ties": cards in the
recent-products log come first, ordered by index; two cards absent from
the log tie (comparator returns 0). -/
def availBefore (recentProducts : List RecentEntry) (a b : Card) : Bool :=
  match recentIndex recentProducts a.id, recentIndex recentProducts b.id with
  | some i, some j => i ≤ j
  | some _, none => true
  | none, some _ => false
  | none, none => true

/-- The unsearched available sublist of `renderStoreDetail`: cards
carrying the store label and sitting in the catalog list (lines 784,
790). -/
def availableCards (s : ToggleState) (storeLabelId : Nat) : List Card :=
  (s.cards.filter (fun c => c.idLabels.contains storeLabelId)).filter
    (fun c => c.idList == s.allProductsListId)

/-- The sort of `renderStoreDetail` (lines 832-846): JavaScript's
`Array.prototype.sort` is stable and the comparator induces the total
preorder `availBefore`, so the result is the stable merge sort of the
available sublist under `availBefore`. -/
def sortedAvailableCards (s : ToggleState) (storeLabelId : Nat) : List Card :=
  (availableCards s storeLabelId).mergeSort (availBefore s.recentProducts)

end ShoppingApp

namespace ShoppingApp

/-- A store definition from the app config: `{name, color}` (the icon
plays no role in board setup). -/
structure StoreDef where
  name : String
  color : String
deriving Repr, DecidableEq

/-- A location definition from the app config: `{name, color}`. -/
structure LocationDef where
  name : String
  color : String
deriving Repr, DecidableEq

/-- The configuration fields consumed by the bootstrap
(`this.config.listNames`, `this.config.stores`, `this.config.locations`). -/
structure Config where
  allProductsName : String
  activeListName : String
  stores : List StoreDef
  locations : List LocationDef
deriving Repr, DecidableEq

/-- The color classes `setupBoardStructure` uses to test whether the
location-label group already exists (`app.js` line 635). -/
def locationGroupColors : List String :=
  ["green", "blue", "purple", "sky", "lime", "pink"]

/-- The color classes `setupBoardStructure` uses to test whether the
store-label group already exists (`app.js` line 645). -/
def storeGroupColors : List String :=
  ["orange", "red", "yellow", "black"]

/-- The state manipulated by the bootstrap: the cached lists and labels,
the two resolved distinguished lists, a fresh-id supply for created
entities, and counters recording the remote creation calls issued per
kind. -/
structure BootState where
  lists : List TList
  labels : List TLabel
  allProductsList : Option TList
  activeList : Option TList
  nextId : Nat
  listCreateCalls : Nat
  locationLabelCreateCalls : Nat
  storeLabelCreateCalls : Nat
deriving Repr, DecidableEq

/-- One remote `createList` call, appending the created list and counting
the call. -/
def bootCreateList (s : BootState) (name : String) : TList × BootState :=
  let l : TList := { id := s.nextId, name := name }
  (l, { s with lists := s.lists ++ [l], nextId := s.nextId + 1,
                listCreateCalls := s.listCreateCalls + 1 })

/-- One iteration of the location-label creation loop (`app.js` lines
638-641): one remote `createLabel` call, appended and counted. -/
def createLocationLabel (st : BootState) (loc : LocationDef) : BootState :=
  let label : TLabel := { id := st.nextId, name := loc.name, color := loc.color }
  { st with labels := st.labels ++ [label], nextId := st.nextId + 1,
            locationLabelCreateCalls := st.locationLabelCreateCalls + 1 }

/-- One iteration of the store-label creation loop (`app.js` lines
648-651): one remote `createLabel` call, appended and counted. -/
def createStoreLabel (st : BootState) (store : StoreDef) : BootState :=
  let label : TLabel := { id := st.nextId, name := store.name, color := store.color }
  { st with labels := st.labels ++ [label], nextId := st.nextId + 1,
            storeLabelCreateCalls := st.storeLabelCreateCalls + 1 }

/-- The label-creation phase of `setupBoardStructure` (`app.js` lines
634-652): create the whole location-label group iff no cached label has a
location-class color, then the whole store-label group iff no cached
label has a store-class color. -/
def setupLabels (cfg : Config) (s2 : BootState) : BootState :=
  let locationLabels :=
    s2.labels.filter (fun l => locationGroupColors.contains l.color)
  let s3 :=
    if locationLabels.isEmpty then cfg.locations.foldl createLocationLabel s2
    else s2
  let storeLabels :=
    s3.labels.filter (fun l => storeGroupColors.contains l.color)
  if storeLabels.isEmpty then cfg.stores.foldl createStoreLabel s3
  else s3

/-- The method `setupBoardStructure` (`app.js` lines 622-653): create each missing
distinguished list, then run the label-creation phase. -/
def setupBoardStructure (cfg : Config) (s : BootState) : BootState :=
  let s1 :=
    match s.allProductsList with
    | some _ => s
    | none =>
      let created := bootCreateList s cfg.allProductsName
      { created.2 with allProductsList := some created.1 }
  let s2 :=
    match s1.activeList with
    | some _ => s1
    | none =>
      let created := bootCreateList s1 cfg.activeListName
      { created.2 with activeList := some created.1 }
  setupLabels cfg s2

/-- The bootstrap portion of `loadBoard` (`app.js` lines 607-613):
resolve the two distinguished lists by name and run
`setupBoardStructure` only when at least one is missing. -/
def bootstrapBoard (cfg : Config) (lists : List TList) (labels : List TLabel)
    (nextId : Nat) : BootState :=
  let allProductsList := lists.find? (fun l => l.name == cfg.allProductsName)
  let activeList := lists.find? (fun l => l.name == cfg.activeListName)
  let s0 : BootState :=
    { lists := lists, labels := labels,
      allProductsList := allProductsList, activeList := activeList,
      nextId := nextId, listCreateCalls := 0,
      locationLabelCreateCalls := 0, storeLabelCreateCalls := 0 }
  if allProductsList.isNone || activeList.isNone then
    setupBoardStructure cfg s0
  else s0

end ShoppingApp

namespace ShoppingApp

/-- A label reference inside an import document: `{name, color}` (the
legacy bare-string form carries the default color). -/
structure LabelRef where
  name : String
  color : String
deriving Repr, DecidableEq

/-- One product record of an import document. -/
structure ImportProduct where
  name : String
  desc : String
  stores : List LabelRef
  locations : List LabelRef
  inList : Bool
deriving Repr, DecidableEq

/-- The state threaded through `importProducts`: the card and label
caches, a fresh-id supply for created entities, and the three counters
reported by the import toast. -/
structure ImportState where
  cards : List Card
  labels : List TLabel
  nextId : Nat
  imported : Nat
  skipped : Nat
  labelsCreated : Nat
deriving Repr, DecidableEq

/-- JavaScript `String.prototype.toLowerCase()` as used by the import duplicate
check: lowercase character by character (`Char.toLower` models it on the
ASCII names the app compares). -/
def jsToLowerCase (s : String) : String :=
  String.mk (s.data.map Char.toLower)

/-- Resolution of one referenced label (`app.js` lines 2306-2320 and
2329-2343): find a cached label by exact name equality, and otherwise
create one with the referenced color, append it to the cache and count
it.  Remote creation is modelled as succeeding. -/
def resolveOrCreateLabel (st : ImportState) (ref : LabelRef) : Nat × ImportState :=
  match st.labels.find? (fun l => l.name == ref.name) with
  | some label => (label.id, st)
  | none =>
    let label : TLabel := { id := st.nextId, name := ref.name, color := ref.color }
    (label.id,
     { st with labels := st.labels ++ [label], nextId := st.nextId + 1,
               labelsCreated := st.labelsCreated + 1 })

/-- One iteration of either label-resolution loop inside the import:
resolve or create the referenced label and append its id to the list of
ids for the card being built. -/
def resolveLabelStep (acc : List Nat × ImportState) (ref : LabelRef) :
    List Nat × ImportState :=
  let resolved := resolveOrCreateLabel acc.2 ref
  (acc.1 ++ [resolved.1], resolved.2)

/-- The per-product body of the `importProducts` loop (`app.js` lines
2289-2359): skip when a cached card has a case-insensitively equal name;
otherwise resolve or create the referenced store and location labels and
create the card in the active or catalog list per its flag. -/
def importOne (allProductsListId activeListId : Nat) (st : ImportState)
    (product : ImportProduct) : ImportState :=
  if st.cards.any (fun c => jsToLowerCase c.name == jsToLowerCase product.name) then
    { st with skipped := st.skipped + 1 }
  else
    let afterStores := product.stores.foldl resolveLabelStep ([], st)
    let afterLocations := product.locations.foldl resolveLabelStep afterStores
    let labelIds := afterLocations.1
    let st1 := afterLocations.2
    let targetListId := if product.inList then activeListId else allProductsListId
    let card : Card :=
      { id := st1.nextId, name := product.name, idList := targetListId,
        idLabels := labelIds, desc := product.desc }
    { st1 with cards := st1.cards ++ [card], nextId := st1.nextId + 1,
               imported := st1.imported + 1 }

/-- The method `importProducts` (`app.js` lines 2273-2378) on an already-parsed
document, with every remote call succeeding: fold the per-product body
over the document, starting from zeroed counters. -/
def importProducts (allProductsListId activeListId : Nat)
    (products : List ImportProduct) (cards : List Card)
    (labels : List TLabel) (nextId : Nat) : ImportState :=
  products.foldl (importOne allProductsListId activeListId)
    { cards := cards, labels := labels, nextId := nextId,
      imported := 0, skipped := 0, labelsCreated := 0 }

end ShoppingApp

namespace ShoppingApp

/-- The outcome of `deleteAllProducts`. -/
structure DeleteAllResult where
  cards : List Card
  deleted : Nat
  failed : Nat
deriving Repr, DecidableEq

/-- The method `deleteAllProducts` (`app.js` lines 1846-1889): issue one remote
deletion per cached card, counting successes and failures (a failing
deletion is caught and only counted), then unconditionally clear the
local card cache.  `remoteDeleteSucceeds` gives each card's remote
outcome. -/
def deleteAllProducts (cards : List Card)
    (remoteDeleteSucceeds : Nat → Bool) : DeleteAllResult :=
  let counts := cards.foldl
    (fun (acc : Nat × Nat) card =>
      if remoteDeleteSucceeds card.id then (acc.1 + 1, acc.2)
      else (acc.1, acc.2 + 1))
    (0, 0)
  { cards := [], deleted := counts.1, failed := counts.2 }

/-- The view tag `this.currentView`. -/
inductive View where
  | stores
  | detail
  | shopping
deriving Repr, DecidableEq

/-- The navigation state touched by the view transitions: the view tag,
the store shown in the detail view, the store picked in shopping mode,
and the transient search text. -/
structure UiState where
  currentView : View
  currentStore : Option Nat
  selectedStore : Option Nat
  searchQuery : String
deriving Repr, DecidableEq

/-- The method `showStoreCards()` (`app.js` lines 675-687): enter the stores view
and clear the search text. -/
def showStoreCards (s : UiState) : UiState :=
  { s with currentView := View.stores, searchQuery := "" }

/-- The method `showStoreDetail(storeLabel)` (`app.js` lines 689-701): enter the
detail view for the store and clear the search text. -/
def showStoreDetail (s : UiState) (storeLabelId : Nat) : UiState :=
  { s with currentView := View.detail, currentStore := some storeLabelId,
           searchQuery := "" }

/-- The method `showShoppingMode()` (`app.js` lines 1489-1498): enter shopping mode
and reset the picked store; the search text is left untouched. -/
def showShoppingMode (s : UiState) : UiState :=
  { s with currentView := View.shopping, selectedStore := none }

end ShoppingApp

namespace ShoppingApp

theorem addToRecentProducts_length_le (log : List RecentEntry)
    (cardId timestamp : Nat) :
    (addToRecentProducts log cardId timestamp).length ≤ 10 := by
  simp only [addToRecentProducts, List.length_take]
  exact Nat.min_le_left _ _

/-- C8: the search-normalization function maps "Café" and "cafe" to equal
comparison keys. -/
theorem normalizeString_cafe :
    normalizeString "Café" = normalizeString "cafe" := by decide

/-- C4: the recent-products log stays within 10 entries under any sequence
of `addToRecentProducts` calls, and inserting a new product into a full
log of 10 places the new entry first and evicts the last entry. -/
theorem recentProducts_bounded (recentProducts : List RecentEntry)
    (ops : List (Nat × Nat)) (hlen : recentProducts.length ≤ 10) :
    (applyRecentOps recentProducts ops).length ≤ 10 ∧
    ∀ (log : List RecentEntry) (cardId timestamp : Nat),
      log.length = 10 → (∀ e ∈ log, e.cardId ≠ cardId) →
      addToRecentProducts log cardId timestamp =
        { cardId := cardId, timestamp := timestamp } :: log.dropLast := by
  constructor
  · induction ops generalizing recentProducts with
    | nil => exact hlen
    | cons op ops ih =>
      exact ih (addToRecentProducts recentProducts op.1 op.2)
        (addToRecentProducts_length_le _ _ _)
  · intro log cardId timestamp h10 hfresh
    have hfilter : log.filter (fun item => item.cardId != cardId) = log := by
      refine List.filter_eq_self.mpr (fun e he => ?_)
      simp only [bne_iff_ne, ne_eq]
      exact hfresh e he
    simp only [addToRecentProducts, hfilter, List.take_succ_cons]
    rw [List.dropLast_eq_take, h10]

theorem recentProducts_bounded_witness :
    (applyRecentOps [] [(1, 5)]).length ≤ 10 ∧
    addToRecentProducts
        [⟨1, 1⟩, ⟨2, 2⟩, ⟨3, 3⟩, ⟨4, 4⟩, ⟨5, 5⟩,
         ⟨6, 6⟩, ⟨7, 7⟩, ⟨8, 8⟩, ⟨9, 9⟩, ⟨10, 10⟩] 11 100 =
      ({ cardId := 11, timestamp := 100 } : RecentEntry) ::
        ([⟨1, 1⟩, ⟨2, 2⟩, ⟨3, 3⟩, ⟨4, 4⟩, ⟨5, 5⟩,
          ⟨6, 6⟩, ⟨7, 7⟩, ⟨8, 8⟩, ⟨9, 9⟩, ⟨10, 10⟩] :
            List RecentEntry).dropLast := by
  have h := recentProducts_bounded [] [(1, 5)] (by decide)
  exact ⟨h.1, h.2 _ 11 100 (by decide) (by decide)⟩

theorem deleteAll_foldl_counts (cards : List Card) (f : Nat → Bool) (a b : Nat) :
    cards.foldl
        (fun (acc : Nat × Nat) card =>
          if f card.id then (acc.1 + 1, acc.2) else (acc.1, acc.2 + 1))
        (a, b) =
      (a + (cards.filter (fun c => f c.id)).length,
       b + (cards.filter (fun c => !f c.id)).length) := by
  induction cards generalizing a b with
  | nil => simp
  | cons c cs ih =>
    by_cases h : f c.id = true <;>
      simp [List.filter_cons, h, ih] <;> omega

/-- C9: after `deleteAllProducts` the local card cache is empty whatever
the per-card remote outcomes were; failed deletions are only counted. -/
theorem deleteAllProducts_clears (cards : List Card)
    (remoteDeleteSucceeds : Nat → Bool) :
    (deleteAllProducts cards remoteDeleteSucceeds).cards = [] ∧
    (deleteAllProducts cards remoteDeleteSucceeds).deleted =
      (cards.filter (fun c => remoteDeleteSucceeds c.id)).length ∧
    (deleteAllProducts cards remoteDeleteSucceeds).failed =
      (cards.filter (fun c => !remoteDeleteSucceeds c.id)).length := by
  unfold deleteAllProducts
  rw [deleteAll_foldl_counts]
  exact ⟨rfl, by simp, by simp⟩

/-- C7 counterexample: entering shopping mode does not clear the transient
search text; a nonempty query survives `showShoppingMode`. -/
theorem showShoppingMode_keeps_search :
    (showShoppingMode
        { currentView := View.stores, currentStore := none,
          selectedStore := none, searchQuery := "milk" }).searchQuery = "milk" ∧
    ("milk" : String) ≠ "" :=
  ⟨rfl, by decide⟩

/-- C7 (amended): entering the stores view or the store-detail view clears
the transient search text, while entering shopping mode leaves the search
text unchanged. -/
theorem view_transitions_search_clearing (s : UiState) (storeLabelId : Nat) :
    (showStoreCards s).searchQuery = "" ∧
    (showStoreDetail s storeLabelId).searchQuery = "" ∧
    (showShoppingMode s).searchQuery = s.searchQuery :=
  ⟨rfl, rfl, rfl⟩

/-- C6 counterexample: the code trims the raw query before normalizing, so
the query "le " (with a trailing space) matches "Leche Entera" although
its normalization alone, "le ", is a prefix of no word of the name. -/
theorem search_trim_counterexample :
    productMatches "le " "Leche Entera" = true ∧
    ¬ matchesSpec "le " "Leche Entera" :=
  ⟨by decide, by decide⟩

/-- C6 (amended): a product matches a query iff the trimmed-then-normalized
query is a prefix of some whitespace-delimited word of the normalized
product name; query "le" matches "Leche Entera" and "che" does not. -/
theorem productMatches_prefix_words :
    (∀ searchQuery name : String,
      productMatches searchQuery name = true ↔
        ∃ w ∈ splitWs (normalizeChars name.data),
          (normalizeChars (jsTrim searchQuery.data)).isPrefixOf w = true) ∧
    productMatches "le" "Leche Entera" = true ∧
    productMatches "che" "Leche Entera" = false := by
  refine ⟨fun searchQuery name => ?_, by decide, by decide⟩
  unfold productMatches
  simp [List.any_eq_true]

end ShoppingApp

namespace ShoppingApp

theorem setCardList_twice (cards : List Card) (i a b : Nat) :
    setCardList (setCardList cards i a) i b = setCardList cards i b := by
  induction cards with
  | nil => rfl
  | cons c cs ih =>
    by_cases h : (c.id == i) = true
    · simp [setCardList, h]
    · simp [setCardList, h, ih]

theorem setCardList_of_find?_idList (cards : List Card) (card : Card) (i : Nat)
    (hfind : cards.find? (fun c => c.id == i) = some card) :
    setCardList cards i card.idList = cards := by
  induction cards with
  | nil => simp at hfind
  | cons c cs ih =>
    by_cases h : (c.id == i) = true
    · rw [show (c :: cs).find? (fun c => c.id == i) = some c from
        List.find?_cons_of_pos _ h] at hfind
      injection hfind with hc
      subst hc
      simp [setCardList, h]
    · rw [show (c :: cs).find? (fun c => c.id == i) = cs.find? (fun c => c.id == i) from
        List.find?_cons_of_neg _ (by simp [h])] at hfind
      simp [setCardList, h, ih hfind]

/-- A one-card state whose card sits in the active list (20); the catalog
list is 10 and the recent-products log is empty. -/
def sampleActiveState : ToggleState :=
  { cards := [{ id := 1, name := "Pan", idList := 20, idLabels := [7], desc := "" }],
    allProductsListId := 10, activeListId := 20, recentProducts := [] }

/-- C1 counterexample: in `toggleCardActive` the recent-products push only
happens after the remote call succeeds, so a failed active-to-inactive
toggle leaves no entry for the product in the log, contradicting the
claim that the pushed entry survives the failure on every view path. -/
theorem toggleCardActive_failure_no_recent_entry :
    ((sampleActiveState.cards.find? (fun c => c.id == 1)).map Card.idList =
        some sampleActiveState.activeListId) ∧
    (toggleCardActive sampleActiveState 1 100 false).recentProducts = [] ∧
    ((toggleCardActive sampleActiveState 1 100 false).recentProducts.any
        (fun e => e.cardId == 1)) = false :=
  ⟨by decide, by decide, by decide⟩

/-- C1 (amended): on remote failure both toggle paths restore the card
cache exactly, so list membership is as before the call; a failed
active-to-inactive `toggleProduct` still leaves the freshly pushed entry
at the head of the recent-products log, while `toggleCardActive` pushes
only after remote success and so leaves the log unchanged on failure. -/
theorem toggle_failure_rollback (s : ToggleState) (cardId timestamp : Nat) :
    (toggleProduct s cardId timestamp false).cards = s.cards ∧
    (toggleCardActive s cardId timestamp false).cards = s.cards ∧
    (toggleCardActive s cardId timestamp false).recentProducts = s.recentProducts ∧
    (∀ card, s.cards.find? (fun c => c.id == cardId) = some card →
      card.idList = s.activeListId →
      (toggleProduct s cardId timestamp false).recentProducts =
        addToRecentProducts s.recentProducts cardId timestamp ∧
      (addToRecentProducts s.recentProducts cardId timestamp).head? =
        some { cardId := cardId, timestamp := timestamp }) := by
  cases hfind : s.cards.find? (fun c => c.id == cardId) with
  | none =>
    refine ⟨?_, ?_, ?_, ?_⟩
    · simp [toggleProduct, hfind]
    · simp [toggleCardActive, hfind]
    · simp [toggleCardActive, hfind]
    · intro card hc
      cases hc
  | some card =>
    have hset : ∀ a : Nat,
        setCardList (setCardList s.cards cardId a) cardId card.idList = s.cards :=
      fun a => by
        rw [setCardList_twice]
        exact setCardList_of_find?_idList s.cards card cardId hfind
    refine ⟨?_, ?_, ?_, ?_⟩
    · by_cases hact : (card.idList == s.activeListId) = true <;>
        simp [toggleProduct, hfind, hact, hset]
    · by_cases hact : (card.idList == s.activeListId) = true <;>
        simp [toggleCardActive, hfind, hact, hset]
    · by_cases hact : (card.idList == s.activeListId) = true <;>
        simp [toggleCardActive, hfind, hact]
    · intro card' hfind' hactive
      injection hfind' with hc
      subst hc
      have hact : (card.idList == s.activeListId) = true := by
        simp [hactive]
      refine ⟨by simp [toggleProduct, hfind, hact], ?_⟩
      rfl

theorem toggle_failure_rollback_witness :
    (toggleProduct sampleActiveState 1 100 false).cards = sampleActiveState.cards ∧
    (toggleCardActive sampleActiveState 1 100 false).cards = sampleActiveState.cards ∧
    (toggleCardActive sampleActiveState 1 100 false).recentProducts =
      sampleActiveState.recentProducts ∧
    (toggleProduct sampleActiveState 1 100 false).recentProducts =
      addToRecentProducts sampleActiveState.recentProducts 1 100 ∧
    (addToRecentProducts sampleActiveState.recentProducts 1 100).head? =
      some { cardId := 1, timestamp := 100 } := by
  have h := toggle_failure_rollback sampleActiveState 1 100
  have h4 := h.2.2.2
    { id := 1, name := "Pan", idList := 20, idLabels := [7], desc := "" }
    (by decide) (by decide)
  exact ⟨h.1, h.2.1, h.2.2.1, h4.1, h4.2⟩

end ShoppingApp

namespace ShoppingApp

theorem find?_setCardList (cards : List Card) (i l : Nat) :
    (setCardList cards i l).find? (fun c => c.id == i) =
      (cards.find? (fun c => c.id == i)).map (fun c => { c with idList := l }) := by
  induction cards with
  | nil => rfl
  | cons c cs ih =>
    by_cases h : (c.id == i) = true
    · simp [setCardList, h]
    · simp [setCardList, h, ih]

theorem toggle_twice_state (s : ToggleState) (card : Card) (ts1 ts2 : Nat)
    (hfind : s.cards.find? (fun c => c.id == card.id) = some card)
    (hlist : card.idList = s.allProductsListId)
    (hne : s.allProductsListId ≠ s.activeListId) :
    toggleProduct (toggleProduct s card.id ts1 true) card.id ts2 true =
      { s with recentProducts :=
          addToRecentProducts s.recentProducts card.id ts2 } := by
  have hnact : (card.idList == s.activeListId) = false := by
    rw [hlist]
    simp [hne]
  have h1 : toggleProduct s card.id ts1 true =
      { s with cards := setCardList s.cards card.id s.activeListId } := by
    simp [toggleProduct, hfind, hnact]
  rw [h1]
  have hfind2 : (setCardList s.cards card.id s.activeListId).find?
      (fun c => c.id == card.id) = some { card with idList := s.activeListId } := by
    rw [find?_setCardList, hfind]
    rfl
  have hcards : setCardList (setCardList s.cards card.id s.activeListId)
      card.id s.allProductsListId = s.cards := by
    rw [setCardList_twice, ← hlist]
    exact setCardList_of_find?_idList s.cards card card.id hfind
  simp [toggleProduct, hfind2, hcards]

/-- The function `addToRecentProducts` unfolded one step: the fresh entry is consed in
front of the first nine surviving entries. -/
theorem addToRecent_cons (recent : List RecentEntry) (cardId ts : Nat) :
    addToRecentProducts recent cardId ts =
      ({ cardId := cardId, timestamp := ts } : RecentEntry) ::
        (recent.filter (fun item => item.cardId != cardId)).take 9 := rfl

theorem recentIndex_addToRecent_self (recent : List RecentEntry)
    (cardId ts : Nat) :
    recentIndex (addToRecentProducts recent cardId ts) cardId = some 0 := by
  rw [addToRecent_cons]
  simp [recentIndex, List.findIdx?_cons]

theorem recentIndex_addToRecent_ne_zero (recent : List RecentEntry)
    (cardId ts x k : Nat) (hx : x ≠ cardId)
    (h : recentIndex (addToRecentProducts recent cardId ts) x = some k) :
    k ≠ 0 := by
  rw [addToRecent_cons] at h
  unfold recentIndex at h
  rw [List.findIdx?_cons] at h
  have hbeq : (({ cardId := cardId, timestamp := ts } : RecentEntry).cardId == x) = false := by
    simp
    exact fun he => hx he.symm
  rw [hbeq, if_neg (by simp), List.findIdx?_succ] at h
  cases hfi : List.findIdx? (fun item => item.cardId == x)
      ((recent.filter (fun item => item.cardId != cardId)).take 9) with
  | none => rw [hfi] at h; simp at h
  | some j =>
    rw [hfi] at h
    simp only [Option.map_some'] at h
    injection h with hk
    omega

theorem availBefore_total (recent : List RecentEntry) (a b : Card) :
    (availBefore recent a b || availBefore recent b a) = true := by
  unfold availBefore
  rcases recentIndex recent a.id with _ | i <;>
    rcases recentIndex recent b.id with _ | j <;>
    simp <;> omega

theorem availBefore_trans (recent : List RecentEntry) (a b c : Card)
    (h1 : availBefore recent a b = true) (h2 : availBefore recent b c = true) :
    availBefore recent a c = true := by
  unfold availBefore at h1 h2 ⊢
  rcases ha : recentIndex recent a.id with _ | i <;>
    rcases hb : recentIndex recent b.id with _ | j <;>
    rcases hc : recentIndex recent c.id with _ | k <;>
    simp_all <;> omega

theorem availBefore_new_head_false (recent : List RecentEntry)
    (cardId ts : Nat) (c other : Card)
    (hc : c.id = cardId) (hother : other.id ≠ cardId) :
    availBefore (addToRecentProducts recent cardId ts) other c = false := by
  unfold availBefore
  rw [hc, recentIndex_addToRecent_self]
  cases h : recentIndex (addToRecentProducts recent cardId ts) other.id with
  | none => rfl
  | some k =>
    have hk := recentIndex_addToRecent_ne_zero recent cardId ts other.id k hother h
    simp
    omega

theorem head?_of_min (le : Card → Card → Bool) {l : List Card} {x : Card}
    (hsorted : l.Pairwise (fun a b => le a b = true))
    (hmem : x ∈ l)
    (hmin : ∀ y ∈ l, y.id ≠ x.id → le y x = false) :
    l.head?.map Card.id = some x.id := by
  cases l with
  | nil => cases hmem
  | cons h t =>
    by_cases hid : h.id = x.id
    · simp [hid]
    · have hxt : x ∈ t := by
        cases hmem with
        | head => exact absurd rfl hid
        | tail _ hm => exact hm
      have h1 : le h x = true := (List.pairwise_cons.mp hsorted).1 x hxt
      have h2 : le h x = false := hmin h (List.mem_cons_self _ _) hid
      rw [h1] at h2
      cases h2

/-- C3: toggling a catalog product into the active list and back (both
remote moves succeeding) leaves it in the catalog list and puts it at the
head of the sorted available-products ordering of its store. -/
theorem toggle_twice_catalog_front (s : ToggleState) (card : Card)
    (ts1 ts2 storeLabelId : Nat)
    (hfind : s.cards.find? (fun c => c.id == card.id) = some card)
    (hlist : card.idList = s.allProductsListId)
    (hlabel : storeLabelId ∈ card.idLabels)
    (hne : s.allProductsListId ≠ s.activeListId) :
    ((toggleProduct (toggleProduct s card.id ts1 true) card.id ts2 true).cards.find?
        (fun c => c.id == card.id)).map Card.idList = some s.allProductsListId ∧
    (sortedAvailableCards
        (toggleProduct (toggleProduct s card.id ts1 true) card.id ts2 true)
        storeLabelId).head?.map Card.id = some card.id := by
  rw [toggle_twice_state s card ts1 ts2 hfind hlist hne]
  constructor
  · simp [hfind, hlist]
  · have hmemavail : card ∈ availableCards
        { s with recentProducts := addToRecentProducts s.recentProducts card.id ts2 }
        storeLabelId := by
      refine List.mem_filter.mpr ⟨List.mem_filter.mpr ⟨?_, ?_⟩, ?_⟩
      · exact List.mem_of_find?_eq_some hfind
      · simp [hlabel]
      · simp [hlist]
    refine head?_of_min
      (availBefore (addToRecentProducts s.recentProducts card.id ts2)) ?_ ?_ ?_
    · exact List.sorted_mergeSort
        (fun a b c => availBefore_trans _ a b c)
        (fun a b => availBefore_total _ a b) _
    · exact List.mem_mergeSort.mpr hmemavail
    · intro y _ hy
      exact availBefore_new_head_false s.recentProducts card.id ts2 card y rfl hy

/-- A two-card catalog state: both cards carry store label 7 and sit in
the catalog list 10; the active list is 20. -/
def sampleCatalogState : ToggleState :=
  { cards := [{ id := 1, name := "Leche", idList := 10, idLabels := [7], desc := "" },
              { id := 2, name := "Pan", idList := 10, idLabels := [7], desc := "" }],
    allProductsListId := 10, activeListId := 20, recentProducts := [] }

theorem toggle_twice_catalog_front_witness :
    ((toggleProduct (toggleProduct sampleCatalogState 1 5 true) 1 6 true).cards.find?
        (fun c => c.id == 1)).map Card.idList = some 10 ∧
    (sortedAvailableCards
        (toggleProduct (toggleProduct sampleCatalogState 1 5 true) 1 6 true)
        7).head?.map Card.id = some 1 :=
  toggle_twice_catalog_front sampleCatalogState
    { id := 1, name := "Leche", idList := 10, idLabels := [7], desc := "" } 5 6 7
    (by decide) (by decide) (by decide) (by decide)

end ShoppingApp

namespace ShoppingApp

theorem filter_isEmpty_false_of_mem {α : Type} (l : List α) (p : α → Bool)
    (x : α) (hx : x ∈ l) (hp : p x = true) : (l.filter p).isEmpty = false := by
  have hmem : x ∈ l.filter p := List.mem_filter.mpr ⟨hx, hp⟩
  cases hq : l.filter p with
  | nil => rw [hq] at hmem; cases hmem
  | cons a as => rfl

theorem locFold_preserves (locations : List LocationDef) (st : BootState) :
    (∃ extra : List TLabel,
      (locations.foldl createLocationLabel st).labels = st.labels ++ extra) ∧
    (locations.foldl createLocationLabel st).storeLabelCreateCalls =
      st.storeLabelCreateCalls := by
  induction locations generalizing st with
  | nil => exact ⟨⟨[], by simp⟩, rfl⟩
  | cons loc locs ih =>
    obtain ⟨⟨extra, h1⟩, h2⟩ := ih (createLocationLabel st loc)
    refine ⟨⟨{ id := st.nextId, name := loc.name, color := loc.color } :: extra, ?_⟩, ?_⟩
    · rw [List.foldl_cons, h1]
      simp [createLocationLabel]
    · rw [List.foldl_cons, h2]
      rfl

theorem storeFold_loc_preserves (stores : List StoreDef) (st : BootState) :
    (stores.foldl createStoreLabel st).locationLabelCreateCalls =
      st.locationLabelCreateCalls := by
  induction stores generalizing st with
  | nil => rfl
  | cons sd ss ih =>
    rw [List.foldl_cons, ih]
    rfl

theorem setup_lists_phase (cfg : Config) (s : BootState) :
    ∃ s2 : BootState, setupBoardStructure cfg s = setupLabels cfg s2 ∧
      s2.labels = s.labels ∧
      s2.locationLabelCreateCalls = s.locationLabelCreateCalls ∧
      s2.storeLabelCreateCalls = s.storeLabelCreateCalls := by
  refine ⟨_, rfl, ?_, ?_, ?_⟩ <;>
    rcases hall : s.allProductsList with _ | al <;>
    rcases hact : s.activeList with _ | ac <;>
    simp [bootCreateList, hall, hact]

theorem setupLabels_loc_skip (cfg : Config) (s2 : BootState)
    (h : ∃ l ∈ s2.labels, locationGroupColors.contains l.color = true) :
    (setupLabels cfg s2).locationLabelCreateCalls =
      s2.locationLabelCreateCalls := by
  obtain ⟨lab, hmem, hcol⟩ := h
  have hemp := filter_isEmpty_false_of_mem s2.labels
    (fun l => locationGroupColors.contains l.color) lab hmem hcol
  simp only [setupLabels, hemp, Bool.false_eq_true, if_false]
  split
  · exact storeFold_loc_preserves _ _
  · rfl

theorem setupLabels_store_skip (cfg : Config) (s2 : BootState)
    (h : ∃ l ∈ s2.labels, storeGroupColors.contains l.color = true) :
    (setupLabels cfg s2).storeLabelCreateCalls =
      s2.storeLabelCreateCalls := by
  obtain ⟨lab, hmem, hcol⟩ := h
  by_cases hloc :
      (s2.labels.filter (fun l => locationGroupColors.contains l.color)).isEmpty = true
  · obtain ⟨⟨extra, hlab⟩, hstorepres⟩ := locFold_preserves cfg.locations s2
    have hmem3 : lab ∈ (cfg.locations.foldl createLocationLabel s2).labels := by
      rw [hlab]
      exact List.mem_append_left _ hmem
    have hemp := filter_isEmpty_false_of_mem _
      (fun l => storeGroupColors.contains l.color) lab hmem3 hcol
    simp only [setupLabels, hloc, if_true, hemp, Bool.false_eq_true, if_false]
    exact hstorepres
  · have hlocf : (s2.labels.filter
        (fun l => locationGroupColors.contains l.color)).isEmpty = false :=
      Bool.not_eq_true _ ▸ eq_false_of_ne_true hloc
    have hemp := filter_isEmpty_false_of_mem s2.labels
      (fun l => storeGroupColors.contains l.color) lab hmem hcol
    simp only [setupLabels, hlocf, Bool.false_eq_true, if_false, hemp]

/-- C2 counterexample: with the claim's name-based reading of "store
label", a board holding one of the two configured store labels (named
"Mercadona", but colored green) still gets the whole store group created:
`setupBoardStructure` tests group presence by color class, not by name. -/
theorem bootstrap_partial_store_group_counterexample :
    (∃ l ∈ ([{ id := 0, name := "Mercadona", color := "green" }] : List TLabel),
      ∃ sdef ∈ [({ name := "Mercadona", color := "orange" } : StoreDef),
                { name := "Caprabo", color := "yellow" }], l.name = sdef.name) ∧
    ¬ (∀ sdef ∈ [({ name := "Mercadona", color := "orange" } : StoreDef),
                 { name := "Caprabo", color := "yellow" }],
        ∃ l ∈ ([{ id := 0, name := "Mercadona", color := "green" }] : List TLabel),
          l.name = sdef.name) ∧
    (bootstrapBoard
        { allProductsName := "Todos los Productos",
          activeListName := "Lista Activa",
          stores := [{ name := "Mercadona", color := "orange" },
                     { name := "Caprabo", color := "yellow" }],
          locations := [] }
        [] [{ id := 0, name := "Mercadona", color := "green" }]
        100).storeLabelCreateCalls = 2 := by
  refine ⟨?_, ?_, ?_⟩ <;> decide

/-- C2 (amended): when both distinguished lists already exist the
bootstrap issues no creation calls at all and leaves lists and labels
untouched; and within `setupBoardStructure` each label group is created
only when no cached label carries a color of that group's color class —
if any label of the color class exists, none of that group is created. -/
theorem bootstrap_idempotent (cfg : Config) (lists : List TList)
    (labels : List TLabel) (nextId : Nat)
    (h1 : (lists.find? (fun l => l.name == cfg.allProductsName)).isSome = true)
    (h2 : (lists.find? (fun l => l.name == cfg.activeListName)).isSome = true) :
    (bootstrapBoard cfg lists labels nextId).listCreateCalls = 0 ∧
    (bootstrapBoard cfg lists labels nextId).locationLabelCreateCalls = 0 ∧
    (bootstrapBoard cfg lists labels nextId).storeLabelCreateCalls = 0 ∧
    (bootstrapBoard cfg lists labels nextId).lists = lists ∧
    (bootstrapBoard cfg lists labels nextId).labels = labels ∧
    (∀ st : BootState,
      (∃ l ∈ st.labels, locationGroupColors.contains l.color = true) →
      (setupBoardStructure cfg st).locationLabelCreateCalls =
        st.locationLabelCreateCalls) ∧
    (∀ st : BootState,
      (∃ l ∈ st.labels, storeGroupColors.contains l.color = true) →
      (setupBoardStructure cfg st).storeLabelCreateCalls =
        st.storeLabelCreateCalls) := by
  obtain ⟨al, hal⟩ := Option.isSome_iff_exists.mp h1
  obtain ⟨ac, hac⟩ := Option.isSome_iff_exists.mp h2
  refine ⟨?_, ?_, ?_, ?_, ?_, ?_, ?_⟩
  · simp [bootstrapBoard, hal, hac]
  · simp [bootstrapBoard, hal, hac]
  · simp [bootstrapBoard, hal, hac]
  · simp [bootstrapBoard, hal, hac]
  · simp [bootstrapBoard, hal, hac]
  · intro st h
    obtain ⟨s2, heq, hlab, hloc, _⟩ := setup_lists_phase cfg st
    rw [heq, setupLabels_loc_skip cfg s2 (by rw [hlab]; exact h)]
    exact hloc
  · intro st h
    obtain ⟨s2, heq, hlab, _, hstore⟩ := setup_lists_phase cfg st
    rw [heq, setupLabels_store_skip cfg s2 (by rw [hlab]; exact h)]
    exact hstore

theorem bootstrap_idempotent_witness :
    (bootstrapBoard
        { allProductsName := "Todos", activeListName := "Activa",
          stores := [{ name := "M", color := "orange" }],
          locations := [{ name := "Nevera", color := "green" }] }
        [{ id := 1, name := "Todos" }, { id := 2, name := "Activa" }]
        [{ id := 3, name := "X", color := "green" },
         { id := 4, name := "M", color := "orange" }] 50).listCreateCalls = 0 ∧
    (setupBoardStructure
        { allProductsName := "Todos", activeListName := "Activa",
          stores := [{ name := "M", color := "orange" }],
          locations := [{ name := "Nevera", color := "green" }] }
        { lists := [], labels := [{ id := 3, name := "X", color := "green" },
                                  { id := 4, name := "M", color := "orange" }],
          allProductsList := none, activeList := none, nextId := 9,
          listCreateCalls := 0, locationLabelCreateCalls := 0,
          storeLabelCreateCalls := 0 }).locationLabelCreateCalls = 0 ∧
    (setupBoardStructure
        { allProductsName := "Todos", activeListName := "Activa",
          stores := [{ name := "M", color := "orange" }],
          locations := [{ name := "Nevera", color := "green" }] }
        { lists := [], labels := [{ id := 3, name := "X", color := "green" },
                                  { id := 4, name := "M", color := "orange" }],
          allProductsList := none, activeList := none, nextId := 9,
          listCreateCalls := 0, locationLabelCreateCalls := 0,
          storeLabelCreateCalls := 0 }).storeLabelCreateCalls = 0 := by
  have h := bootstrap_idempotent
    { allProductsName := "Todos", activeListName := "Activa",
      stores := [{ name := "M", color := "orange" }],
      locations := [{ name := "Nevera", color := "green" }] }
    [{ id := 1, name := "Todos" }, { id := 2, name := "Activa" }]
    [{ id := 3, name := "X", color := "green" },
     { id := 4, name := "M", color := "orange" }] 50
    (by decide) (by decide)
  refine ⟨h.1, ?_, ?_⟩
  · exact h.2.2.2.2.2.1 _ ⟨{ id := 3, name := "X", color := "green" }, by decide, by decide⟩
  · exact h.2.2.2.2.2.2 _ ⟨{ id := 4, name := "M", color := "orange" }, by decide, by decide⟩

end ShoppingApp

namespace ShoppingApp

theorem resolveOrCreateLabel_cards (st : ImportState) (ref : LabelRef) :
    (resolveOrCreateLabel st ref).2.cards = st.cards := by
  unfold resolveOrCreateLabel
  split <;> rfl

theorem labelFold_cards (refs : List LabelRef) (acc : List Nat × ImportState) :
    (refs.foldl resolveLabelStep acc).2.cards = acc.2.cards := by
  induction refs generalizing acc with
  | nil => rfl
  | cons r rs ih =>
    rw [List.foldl_cons, ih]
    exact resolveOrCreateLabel_cards acc.2 r

theorem importOne_skips (allId activeId : Nat) (st : ImportState)
    (q : ImportProduct)
    (hdup : (st.cards.any (fun c => jsToLowerCase c.name == jsToLowerCase q.name)) = true) :
    importOne allId activeId st q = { st with skipped := st.skipped + 1 } := by
  simp [importOne, hdup]

theorem importOne_cards_mono (allId activeId : Nat) (st : ImportState)
    (p : ImportProduct) (c : Card) (hc : c ∈ st.cards) :
    c ∈ (importOne allId activeId st p).cards := by
  unfold importOne
  split
  · exact hc
  · refine List.mem_append_left _ ?_
    rw [labelFold_cards, labelFold_cards]
    exact hc

theorem importOne_creates (allId activeId : Nat) (st : ImportState)
    (q : ImportProduct)
    (hdup : (st.cards.any (fun c => jsToLowerCase c.name == jsToLowerCase q.name)) = false) :
    ∃ c ∈ (importOne allId activeId st q).cards, c.name = q.name := by
  simp only [importOne, hdup, Bool.false_eq_true, if_false]
  exact ⟨_, List.mem_append_right _ (List.mem_singleton_self _), rfl⟩

theorem import_foldl_cards_mono (allId activeId : Nat)
    (ps : List ImportProduct) (st : ImportState) (c : Card)
    (hc : c ∈ st.cards) :
    c ∈ (ps.foldl (importOne allId activeId) st).cards := by
  induction ps generalizing st with
  | nil => exact hc
  | cons q qs ih =>
    rw [List.foldl_cons]
    exact ih _ (importOne_cards_mono allId activeId st q c hc)

theorem import_foldl_covers (allId activeId : Nat)
    (ps : List ImportProduct) (st : ImportState) :
    ∀ p ∈ ps, ∃ c ∈ (ps.foldl (importOne allId activeId) st).cards,
      jsToLowerCase c.name = jsToLowerCase p.name := by
  induction ps generalizing st with
  | nil => simp
  | cons q qs ih =>
    intro p hp
    rw [List.foldl_cons]
    rcases List.mem_cons.mp hp with rfl | hp'
    · cases hdup : st.cards.any (fun c => jsToLowerCase c.name == jsToLowerCase p.name) with
      | true =>
        obtain ⟨c, hc, hcn⟩ := List.any_eq_true.mp hdup
        exact ⟨c, import_foldl_cards_mono allId activeId qs _ c
          (importOne_cards_mono allId activeId st p c hc), by simpa using hcn⟩
      | false =>
        obtain ⟨c, hc, hcn⟩ := importOne_creates allId activeId st p hdup
        exact ⟨c, import_foldl_cards_mono allId activeId qs _ c hc, by rw [hcn]⟩
    · exact ih (importOne allId activeId st q) p hp'

theorem import_foldl_skips_all (allId activeId : Nat)
    (ps : List ImportProduct) (st : ImportState)
    (h : ∀ p ∈ ps, ∃ c ∈ st.cards, jsToLowerCase c.name = jsToLowerCase p.name) :
    ps.foldl (importOne allId activeId) st =
      { st with skipped := st.skipped + ps.length } := by
  induction ps generalizing st with
  | nil => simp
  | cons q qs ih =>
    obtain ⟨c, hc, hcn⟩ := h q (List.mem_cons_self q qs)
    have hdup : (st.cards.any (fun c => jsToLowerCase c.name == jsToLowerCase q.name)) = true :=
      List.any_eq_true.mpr ⟨c, hc, by simp [hcn]⟩
    rw [List.foldl_cons, importOne_skips allId activeId st q hdup,
      ih { st with skipped := st.skipped + 1 }
        (fun p hp => h p (List.mem_cons_of_mem _ hp))]
    have harith : st.skipped + 1 + qs.length = st.skipped + (qs.length + 1) := by
      omega
    simp [harith]

/-- C5: importing the same document a second time, starting from the card
cache produced by the first (successful) import, creates zero new
products: every product is skipped as a duplicate and the cache is
unchanged. -/
theorem importProducts_idempotent (allId activeId nextId : Nat)
    (products : List ImportProduct) (cards : List Card)
    (labels : List TLabel) :
    (importProducts allId activeId products
        (importProducts allId activeId products cards labels nextId).cards
        (importProducts allId activeId products cards labels nextId).labels
        (importProducts allId activeId products cards labels nextId).nextId).imported = 0 ∧
    (importProducts allId activeId products
        (importProducts allId activeId products cards labels nextId).cards
        (importProducts allId activeId products cards labels nextId).labels
        (importProducts allId activeId products cards labels nextId).nextId).cards =
      (importProducts allId activeId products cards labels nextId).cards ∧
    (importProducts allId activeId products
        (importProducts allId activeId products cards labels nextId).cards
        (importProducts allId activeId products cards labels nextId).labels
        (importProducts allId activeId products cards labels nextId).nextId).skipped =
      products.length := by
  have hcover := import_foldl_covers allId activeId products
    { cards := cards, labels := labels, nextId := nextId,
      imported := 0, skipped := 0, labelsCreated := 0 }
  have hskip := import_foldl_skips_all allId activeId products
    { cards := (importProducts allId activeId products cards labels nextId).cards,
      labels := (importProducts allId activeId products cards labels nextId).labels,
      nextId := (importProducts allId activeId products cards labels nextId).nextId,
      imported := 0, skipped := 0, labelsCreated := 0 }
    (fun p hp => hcover p hp)
  unfold importProducts
  rw [show (importProducts allId activeId products cards labels nextId) =
    products.foldl (importOne allId activeId)
      { cards := cards, labels := labels, nextId := nextId,
        imported := 0, skipped := 0, labelsCreated := 0 } from rfl] at hskip
  rw [hskip]
  exact ⟨rfl, rfl, by simp⟩

end ShoppingApp

namespace ShoppingApp

/-- C10: label references are resolved against the cache by exact
case-sensitive name equality, so when only a case-differing label exists a
new label is created (with the referenced spelling) and the new label's id
— not the existing one's — is attached to the created card; in the same
operation the product-duplicate check compares names case-insensitively
and skips a case-differing duplicate. -/
theorem import_label_resolution_case_sensitive
    (allId activeId nextId : Nat) (cards : List Card) (labels : List TLabel)
    (p : ImportProduct) (ref : LabelRef)
    (hstores : p.stores = [ref]) (hlocs : p.locations = [])
    (hnodup : (cards.any (fun c => jsToLowerCase c.name == jsToLowerCase p.name)) = false)
    (hexact : ∀ l ∈ labels, l.name ≠ ref.name)
    (hci : ∃ l ∈ labels, jsToLowerCase l.name = jsToLowerCase ref.name) :
    (importProducts allId activeId [p] cards labels nextId).labelsCreated = 1 ∧
    (importProducts allId activeId [p] cards labels nextId).labels =
      labels ++ [{ id := nextId, name := ref.name, color := ref.color }] ∧
    (∃ c ∈ (importProducts allId activeId [p] cards labels nextId).cards,
      c.name = p.name ∧ c.idLabels = [nextId]) ∧
    (∀ q : ImportProduct, (∃ c ∈ cards, jsToLowerCase c.name = jsToLowerCase q.name) →
      (importProducts allId activeId [q] cards labels nextId).imported = 0 ∧
      (importProducts allId activeId [q] cards labels nextId).skipped = 1) := by
  obtain ⟨-, hl⟩ := hci
  have hfindnone : labels.find? (fun l => l.name == ref.name) = none :=
    List.find?_eq_none.mpr (fun l hl => by simp [hexact l hl])
  have hmain : importProducts allId activeId [p] cards labels nextId =
      { cards := cards ++
          [{ id := nextId + 1, name := p.name,
             idList := if p.inList then activeId else allId,
             idLabels := [nextId], desc := p.desc }],
        labels := labels ++ [{ id := nextId, name := ref.name, color := ref.color }],
        nextId := nextId + 2, imported := 1, skipped := 0, labelsCreated := 1 } := by
    simp [importProducts, importOne, hnodup, hstores, hlocs,
      resolveLabelStep, resolveOrCreateLabel, hfindnone, Nat.add_assoc]
  refine ⟨by rw [hmain], by rw [hmain], ?_, ?_⟩
  · rw [hmain]
    exact ⟨_, List.mem_append_right _ (List.mem_singleton_self _), rfl, rfl⟩
  · intro q hq
    obtain ⟨c, hc, hn⟩ := hq
    have hdup : (cards.any (fun c => jsToLowerCase c.name == jsToLowerCase q.name)) = true :=
      List.any_eq_true.mpr ⟨c, hc, by simp [hn]⟩
    have hskip := importOne_skips allId activeId
      { cards := cards, labels := labels, nextId := nextId,
        imported := 0, skipped := 0, labelsCreated := 0 } q hdup
    constructor
    · simp [importProducts, hskip]
    · simp [importProducts, hskip]

/-- Concrete fixtures for the label-resolution witness: a cached card
"PAN", a cached label "mercadona", and an import document referencing the
label as "Mercadona". -/
def sampleImportProduct : ImportProduct :=
  { name := "Leche", desc := "",
    stores := [{ name := "Mercadona", color := "orange" }],
    locations := [], inList := false }

/-- An import record whose name differs from the cached card "PAN" only
in letter case. -/
def sampleImportDup : ImportProduct :=
  { name := "pan", desc := "", stores := [], locations := [], inList := true }

/-- The cached card list for the label-resolution witness. -/
def sampleImportCards : List Card :=
  [{ id := 1, name := "PAN", idList := 10, idLabels := [], desc := "" }]

/-- The cached label list for the label-resolution witness. -/
def sampleImportLabels : List TLabel :=
  [{ id := 5, name := "mercadona", color := "red" }]

theorem import_label_resolution_case_sensitive_witness :
    (importProducts 10 20 [sampleImportProduct]
        sampleImportCards sampleImportLabels 30).labelsCreated = 1 ∧
    (importProducts 10 20 [sampleImportProduct]
        sampleImportCards sampleImportLabels 30).labels =
      sampleImportLabels ++ [{ id := 30, name := "Mercadona", color := "orange" }] ∧
    (∃ c ∈ (importProducts 10 20 [sampleImportProduct]
        sampleImportCards sampleImportLabels 30).cards,
      c.name = sampleImportProduct.name ∧ c.idLabels = [30]) ∧
    (importProducts 10 20 [sampleImportDup]
        sampleImportCards sampleImportLabels 30).imported = 0 ∧
    (importProducts 10 20 [sampleImportDup]
        sampleImportCards sampleImportLabels 30).skipped = 1 := by
  have h := import_label_resolution_case_sensitive 10 20 30
    sampleImportCards sampleImportLabels sampleImportProduct
    { name := "Mercadona", color := "orange" }
    rfl rfl (by decide) (by decide)
    ⟨{ id := 5, name := "mercadona", color := "red" },
      List.mem_singleton_self _, by decide⟩
  have hq := h.2.2.2 sampleImportDup
    ⟨{ id := 1, name := "PAN", idList := 10, idLabels := [], desc := "" },
      List.mem_singleton_self _, by decide⟩
  exact ⟨h.1, h.2.1, h.2.2.1, hq.1, hq.2⟩

end ShoppingApp
